import Mathlib

/-!
# chardev: a character device with a 256-byte overwrite-on-write buffer

A shallow embedding of `chardev.c`.  The driver's globals (`device_buffer`,
`buffer_pointer`) are an explicit `Device` state that every file operation
receives and returns; the caller's file position (`loff_t *offset`) is passed
in and handed back; user memory and the kernel services the driver calls are
explicit arguments.

Machine integers: `size_t` values are naturals, `int`, `ssize_t` and `loff_t`
values are integers, and each C conversion between them is written out as the
modular reduction it performs on a 64-bit kernel (`size_t`, `loff_t`, `ssize_t`
and `long` of 64 bits, `int` of 32 bits).
-/

namespace Chardev

/-! ## Machine integers and errno values -/

/-- One `char` of the buffer, held as its unsigned value. -/
abbrev Byte := Fin 256

/-- Errno `EINVAL`. -/
def EINVAL : Int := 22

/-- Errno `EFAULT`. -/
def EFAULT : Int := 14

/-- Conversion of a signed value to `size_t` / `unsigned long` (64 bits). -/
def to_size_t (x : Int) : Nat := (x % 2 ^ 64).toNat

/-- Conversion of an unsigned value to `int` (32 bits, two's complement). -/
def to_int (n : Nat) : Int :=
  if n % 2 ^ 32 < 2 ^ 31 then ((n % 2 ^ 32 : Nat) : Int) else ((n % 2 ^ 32 : Nat) : Int) - 2 ^ 32

/-- Wrap of a signed 64-bit result (`loff_t`, `ssize_t`, `long`). -/
def to_s64 (x : Int) : Int := (x + 2 ^ 63) % 2 ^ 64 - 2 ^ 63

/-! ## Device state -/

/-- Value of `sizeof(device_buffer)`. -/
def sizeof_device_buffer : Nat := 256

/-- The driver's globals: `static char device_buffer[256]` and
`static size_t buffer_pointer`. -/
structure Device where
  device_buffer : List Byte
  buffer_pointer : Nat
  buffer_size : device_buffer.length = sizeof_device_buffer

/-- The globals as the C runtime initialises them: a zeroed array and
`buffer_pointer = 0`. -/
def Device.init : Device :=
  { device_buffer := List.replicate sizeof_device_buffer 0
    buffer_pointer := 0
    buffer_size := List.length_replicate _ _ }

/-! ## User memory and the user-copy primitives -/

/-- Memory behind a `const char __user *`: the bytes the kernel can fetch from
that address before it faults. -/
abbrev UserSrc := List Byte

/-- Memory behind a `char __user *`: how many bytes the kernel can store at
that address before it faults. -/
structure UserDst where
  writable : Nat

/-- Kernel `copy_from_user(dst, src, n)`: fetches bytes until `n` are copied or
the source faults, returns the number of bytes NOT copied, and zero-fills the
part of `dst[0..n)` it could not fill.  Result: new contents of `dst`, residue. -/
def copy_from_user (dst : List Byte) (src : UserSrc) (n : Nat) : List Byte × Nat :=
  let done := min n src.length
  let res := n - done
  (src.take done ++ List.replicate res 0 ++ dst.drop n, res)

/-- Kernel `copy_to_user(dst, src, n)`: stores bytes until `n` are copied or the
destination faults and returns the number of bytes NOT copied.  Result: the
bytes that reached user memory, residue. -/
def copy_to_user (dst : UserDst) (src : List Byte) (n : Nat) : List Byte × Nat :=
  let done := min n dst.writable
  (src.take done, n - done)

/-! ## File operations -/

/-- Outcome of a `read` call: the `ssize_t` returned, the bytes stored in the
caller's buffer, the file position left in `*offset`, and the globals. -/
structure ReadResult where
  ret : Int
  data : List Byte
  offset : Int
  dev : Device

/-- Outcome of a `write` call: the `ssize_t` returned, the file position left in
`*offset`, and the globals. -/
structure WriteResult where
  ret : Int
  offset : Int
  dev : Device

/-- The value `device_read` assigns to its local `int bytes_read`:
`min(length, buffer_pointer - (size_t)*offset)`, computed in `size_t` and
converted to `int`. -/
def bytes_read (s : Device) (length : Nat) (offset : Int) : Int :=
  to_int (min length (s.buffer_pointer - to_size_t offset))

/-- The driver function `device_read(filp, buffer, length, offset)`. -/
def device_read (s : Device) (buffer : UserDst) (length : Nat) (offset : Int) : ReadResult :=
  -- `*offset >= buffer_pointer` compares as unsigned 64-bit values
  if to_size_t offset ≥ s.buffer_pointer then
    { ret := 0, data := [], offset := offset, dev := s }
  else
    -- `copy_to_user(buffer, device_buffer + *offset, bytes_read)`
    let c := copy_to_user buffer (s.device_buffer.drop offset.toNat)
      (to_size_t (bytes_read s length offset))
    if c.2 ≠ 0 then
      { ret := -EFAULT, data := c.1, offset := offset, dev := s }
    else
      { ret := bytes_read s length offset
        data := c.1
        offset := to_s64 (offset + bytes_read s length offset)
        dev := s }

/-- The globals after the statement `copy_from_user(device_buffer, buffer, length)`
of `device_write`, which runs only when `length < sizeof(device_buffer)`:
`device_buffer` as the copy left it, `buffer_pointer` untouched. -/
def copy_in (s : Device) (buffer : UserSrc) (length : Nat)
    (h : ¬ length ≥ sizeof_device_buffer) : Device :=
  { device_buffer := (copy_from_user s.device_buffer buffer length).1
    buffer_pointer := s.buffer_pointer
    buffer_size := by
      have hs := s.buffer_size
      simp only [copy_from_user, List.length_append, List.length_take,
        List.length_replicate, List.length_drop]
      omega }

/-- The driver function `device_write(filp, buffer, length, offset)`. -/
def device_write (s : Device) (buffer : UserSrc) (length : Nat) (offset : Int) : WriteResult :=
  if h : length ≥ sizeof_device_buffer then
    { ret := -EINVAL, offset := offset, dev := s }
  else
    -- `if (copy_from_user(device_buffer, buffer, length)) return -EFAULT;`
    if (copy_from_user s.device_buffer buffer length).2 ≠ 0 then
      { ret := -EFAULT, offset := offset, dev := copy_in s buffer length h }
    else
      -- `buffer_pointer = length; return length;`
      { ret := to_s64 length
        offset := offset
        dev := { copy_in s buffer length h with buffer_pointer := length } }

/-! ## Example values -/

/-- The 5 bytes of "hello". -/
def hello : List Byte := [104, 101, 108, 108, 111]

/-- The 2 bytes of "hi". -/
def hi : List Byte := [104, 105]

/-- The globals after "hello" was written to the freshly loaded device. -/
def holding_hello : Device := (device_write Device.init hello 5 0).dev

/-! ## Reference behaviour, in the words of the specification -/

/-- Buffer Store `read(offset, max_len)` as the specification words it: empty
when `offset ≥ valid_length`, else `min(max_len, valid_length - offset)` bytes
starting at `offset`. -/
def reference_read (content : List Byte) (valid_length offset max_len : Nat) : List Byte :=
  if offset ≥ valid_length then []
  else (content.drop offset).take (min max_len (valid_length - offset))

/-! ## Session counting through the module reference count -/

/-- The kernel's record of `THIS_MODULE` as the driver sees it: whether the
module is live (not being removed) and its reference counter, which holds
`MODULE_REF_BASE` plus one for every reference taken and not yet put. -/
structure Module where
  live : Bool
  refcnt : Nat
deriving DecidableEq

/-- The base reference the module loader holds on a loaded module. -/
def MODULE_REF_BASE : Nat := 1

/-- Kernel `try_module_get`: takes a reference when the module is live and its
counter is not zero, and reports whether it did. -/
def try_module_get (m : Module) : Bool × Module :=
  if m.live && m.refcnt != 0 then (true, { m with refcnt := m.refcnt + 1 }) else (false, m)

/-- Kernel `module_put`: gives a reference back; the counter is decremented
only when it is positive. -/
def module_put (m : Module) : Module :=
  if 0 < m.refcnt then { m with refcnt := m.refcnt - 1 } else m

/-- The driver function `device_open(inode, file)`: neither argument is used,
and the result of `try_module_get` is discarded. -/
def device_open (m : Module) : Int × Module :=
  let got := try_module_get m
  (0, got.2)

/-- The driver function `device_release(inode, file)`. -/
def device_release (m : Module) : Int × Module :=
  (0, module_put m)

/-- The device is registered with `n` open sessions: the module is live and
`n` references taken by `device_open` are outstanding. -/
def Registered (n : Nat) (m : Module) : Prop :=
  m.live = true ∧ m.refcnt = MODULE_REF_BASE + n

/-- `N` calls of `device_open`, one after another. -/
def open_sessions : Nat → Module → Module
  | 0, m => m
  | N + 1, m => open_sessions N (device_open m).2

/-- `N` calls of `device_release`, one after another. -/
def close_sessions : Nat → Module → Module
  | 0, m => m
  | N + 1, m => close_sessions N (device_release m).2

/-! ## The driver as a state machine -/

/-- Everything the four file operations act on. -/
structure Sys where
  dev : Device
  mod : Module

/-- The state right after module load: zeroed buffer, `buffer_pointer = 0`,
live module with no session. -/
def Sys.loaded : Sys :=
  { dev := Device.init, mod := { live := true, refcnt := MODULE_REF_BASE } }

/-- One call through the `fops` table, with its arguments. -/
inductive Call where
  | open
  | release
  | read (buffer : UserDst) (length : Nat) (offset : Int)
  | write (buffer : UserSrc) (length : Nat) (offset : Int)

/-- Dispatch of one call through `fops` (`.open`, `.release`, `.read`,
`.write`), keeping the state it leaves. -/
def fops (k : Sys) : Call → Sys
  | .open => { k with mod := (device_open k.mod).2 }
  | .release => { k with mod := (device_release k.mod).2 }
  | .read buffer length offset => { k with dev := (device_read k.dev buffer length offset).dev }
  | .write buffer length offset => { k with dev := (device_write k.dev buffer length offset).dev }

/-- A sequence of calls, successful or failing, one after another. -/
def run (k : Sys) (calls : List Call) : Sys := calls.foldl fops k

/-! ## A caller reading sequentially in chunks -/

/-- A session that calls `device_read` with `max_len = c` (and room for `c`
bytes in its buffer) again and again, each call at the offset the previous one
left, until a call returns 0.  Result: the non-empty chunks received, in
order, and the final session offset; `none` when `fuel` calls were not enough
to get a return value of 0. -/
def read_chunks (s : Device) (c : Nat) : Nat → Int → Option (List (List Byte) × Int)
  | 0, _ => none
  | fuel + 1, offset =>
    let r := device_read s ⟨c⟩ c offset
    if r.ret = 0 then some ([], r.offset)
    else
      match read_chunks r.dev c fuel r.offset with
      | none => none
      | some (chunks, last) => some (r.data :: chunks, last)

/-! ## Module load and unload -/

/-- The macro `DEVICE_NAME`. -/
def DEVICE_NAME : String := "chardev"

/-- The macro `CLASS_NAME`. -/
def CLASS_NAME : String := "char_class"

/-- Kernel `MAX_ERRNO`: the last 4095 addresses encode an errno. -/
def MAX_ERRNO : Nat := 4095

/-- Kernel `IS_ERR(ptr)`: `(unsigned long)ptr >= (unsigned long)-MAX_ERRNO`. -/
def IS_ERR (ptr : Nat) : Bool := decide (2 ^ 64 - MAX_ERRNO ≤ ptr)

/-- Kernel `PTR_ERR(ptr)`: the pointer read as a `long`. -/
def PTR_ERR (ptr : Nat) : Int := to_s64 (ptr : Int)

/-- Kernel `ERR_PTR(error)`: the `long` read as a pointer. -/
def ERR_PTR (error : Int) : Nat := to_size_t error

/-- Conversion of a `long` to the `int` that `chardev_init` returns. -/
def long_to_int (x : Int) : Int := to_int (to_size_t x)

/-- What the kernel's registration services answer during one load: the return
value of `alloc_chrdev_region` and the device number it stores in `dev_num`,
the pointers returned by `class_create` and `device_create`, and the return
value of `cdev_add`. -/
structure Registrar where
  alloc_chrdev_region : Int × Nat
  class_create : Nat
  device_create : Nat
  cdev_add : Int

/-- A call to a registration service, with the arguments that identify what it
acts on. -/
inductive KCall where
  | alloc_chrdev_region (baseminor count : Nat) (name : String)
  | class_create (name : String)
  | device_create (cls devt : Nat) (name : String)
  | cdev_init
  | cdev_add (devt count : Nat)
  | cdev_del
  | device_destroy (cls devt : Nat)
  | class_destroy (cls : Nat)
  | unregister_chrdev_region (devt count : Nat)
deriving DecidableEq

/-- Outcome of `chardev_init`: the `int` returned, the registration calls made
in order, and the messages passed to `printk`. -/
structure InitResult where
  ret : Int
  calls : List KCall
  log : List String
deriving DecidableEq

/-- The driver function `chardev_init`. -/
def chardev_init (env : Registrar) : InitResult :=
  -- `ret = alloc_chrdev_region(&dev_num, 0, 1, DEVICE_NAME)`
  let ret := env.alloc_chrdev_region.1
  let dev_num := env.alloc_chrdev_region.2
  let t1 := [KCall.alloc_chrdev_region 0 1 DEVICE_NAME]
  if ret < 0 then
    { ret := ret, calls := t1, log := ["Failed to allocate major number\n"] }
  else
    -- `device_class = class_create(CLASS_NAME)`
    let device_class := env.class_create
    let t2 := t1 ++ [KCall.class_create CLASS_NAME]
    if IS_ERR device_class then
      { ret := long_to_int (PTR_ERR device_class)
        calls := t2 ++ [KCall.unregister_chrdev_region dev_num 1]
        log := ["Failed to create device class\n"] }
    else
      -- `dev_ret = device_create(device_class, NULL, dev_num, NULL, DEVICE_NAME)`
      let dev_ret := env.device_create
      let t3 := t2 ++ [KCall.device_create device_class dev_num DEVICE_NAME]
      if IS_ERR dev_ret then
        { ret := long_to_int (PTR_ERR dev_ret)
          calls := t3 ++ [KCall.class_destroy device_class,
                          KCall.unregister_chrdev_region dev_num 1]
          log := ["Failed to create device\n"] }
      else
        -- `cdev_init(&char_device, &fops)`, then `ret = cdev_add(&char_device, dev_num, 1)`
        let t4 := t3 ++ [KCall.cdev_init, KCall.cdev_add dev_num 1]
        let ret := env.cdev_add
        if ret < 0 then
          { ret := ret
            calls := t4 ++ [KCall.device_destroy device_class dev_num,
                            KCall.class_destroy device_class,
                            KCall.unregister_chrdev_region dev_num 1]
            log := ["Failed to add device to system\n"] }
        else
          { ret := 0, calls := t4, log := ["Character device driver loaded successfully\n"] }

/-- The driver function `chardev_exit`, on the globals `dev_num` and
`device_class` that a successful load left: the calls it makes, in order. -/
def chardev_exit (dev_num device_class : Nat) : List KCall :=
  [KCall.cdev_del, KCall.device_destroy device_class dev_num,
   KCall.class_destroy device_class, KCall.unregister_chrdev_region dev_num 1]

/-- One step of the load sequence as the specification describes it: the calls
that perform it, the error it failed with (if it failed), and its inverse
teardown call. -/
structure LoadStep where
  acquire : List KCall
  error : Option Int
  undo : KCall

/-- The four load steps in the specification's order (allocate identity, create
class, create node, bind dispatch table), each with the outcome the registrar
gave it. -/
def load_steps (env : Registrar) : List LoadStep :=
  [ { acquire := [KCall.alloc_chrdev_region 0 1 DEVICE_NAME]
      error := if env.alloc_chrdev_region.1 < 0 then some env.alloc_chrdev_region.1 else none
      undo := KCall.unregister_chrdev_region env.alloc_chrdev_region.2 1 },
    { acquire := [KCall.class_create CLASS_NAME]
      error := if IS_ERR env.class_create then some (long_to_int (PTR_ERR env.class_create))
               else none
      undo := KCall.class_destroy env.class_create },
    { acquire := [KCall.device_create env.class_create env.alloc_chrdev_region.2 DEVICE_NAME]
      error := if IS_ERR env.device_create then some (long_to_int (PTR_ERR env.device_create))
               else none
      undo := KCall.device_destroy env.class_create env.alloc_chrdev_region.2 },
    { acquire := [KCall.cdev_init, KCall.cdev_add env.alloc_chrdev_region.2 1]
      error := if env.cdev_add < 0 then some env.cdev_add else none
      undo := KCall.cdev_del } ]

/-- Index of the first step that failed, if any did. -/
def first_failure : List LoadStep → Option Nat
  | [] => none
  | st :: rest => if st.error.isSome then some 0 else (first_failure rest).map (· + 1)

/-- The calls performing the first `n` steps, in order. -/
def acquired (steps : List LoadStep) (n : Nat) : List KCall :=
  ((steps.take n).map (·.acquire)).flatten

/-- The inverses of the first `n` steps, last step first. -/
def unwound (steps : List LoadStep) (n : Nat) : List KCall :=
  ((steps.take n).map (·.undo)).reverse

/-! ## Overlapping calls

`device_write` takes no lock, so two calls can overlap.  A call in progress is
cut at its three statements (the length test, `copy_from_user`, the assignment
to `buffer_pointer`); a schedule says which call runs its next statement. -/

/-- The statement a `device_write` call of `length` bytes is about to run. -/
inductive WritePc (length : Nat) where
  | check : WritePc length
  | copy (h : ¬ length ≥ sizeof_device_buffer) : WritePc length
  | store : WritePc length
  | returned (ret : Int) : WritePc length

/-- A `device_write` call in progress: its arguments and where it stands. -/
structure WriteCall where
  buffer : UserSrc
  length : Nat
  pc : WritePc length

/-- A `device_write` call that has just been entered. -/
def WriteCall.start (buffer : UserSrc) (length : Nat) : WriteCall :=
  { buffer := buffer, length := length, pc := WritePc.check }

/-- The value the call returned, once it has. -/
def WriteCall.ret? (w : WriteCall) : Option Int :=
  match w.pc with
  | WritePc.returned ret => some ret
  | _ => none

/-- One statement of `device_write`, run on the current globals. -/
def write_step (s : Device) (w : WriteCall) : Device × WriteCall :=
  match w with
  | ⟨buffer, length, pc⟩ =>
    match pc with
    | WritePc.check =>
      -- `if (length >= sizeof(device_buffer)) return -EINVAL;`
      if h : length ≥ sizeof_device_buffer then
        (s, ⟨buffer, length, WritePc.returned (-EINVAL)⟩)
      else
        (s, ⟨buffer, length, WritePc.copy h⟩)
    | WritePc.copy h =>
      -- `if (copy_from_user(device_buffer, buffer, length)) return -EFAULT;`
      if (copy_from_user s.device_buffer buffer length).2 ≠ 0 then
        (copy_in s buffer length h, ⟨buffer, length, WritePc.returned (-EFAULT)⟩)
      else
        (copy_in s buffer length h, ⟨buffer, length, WritePc.store⟩)
    | WritePc.store =>
      -- `buffer_pointer = length; return length;`
      ({ s with buffer_pointer := length }, ⟨buffer, length, WritePc.returned (to_s64 length)⟩)
    | WritePc.returned _ => (s, ⟨buffer, length, pc⟩)

/-- A call that runs its three statements with nothing in between. -/
def write_call_alone (s : Device) (w : WriteCall) : Device × WriteCall :=
  let p1 := write_step s w
  let p2 := write_step p1.1 p1.2
  write_step p2.1 p2.2

/-- Two `device_write` calls in progress on the same globals. -/
structure Race where
  dev : Device
  a : WriteCall
  b : WriteCall

/-- The call picked by the schedule (`true`: call `a`, `false`: call `b`) runs
its next statement. -/
def Race.step (r : Race) (pick_a : Bool) : Race :=
  if pick_a then
    { dev := (write_step r.dev r.a).1, a := (write_step r.dev r.a).2, b := r.b }
  else
    { dev := (write_step r.dev r.b).1, a := r.a, b := (write_step r.dev r.b).2 }

/-- The two calls run under a schedule. -/
def Race.run (r : Race) (schedule : List Bool) : Race := schedule.foldl Race.step r

/-- The two calls, both just entered, on the globals `s`. -/
def Race.start (s : Device) (a_buffer : UserSrc) (a_length : Nat)
    (b_buffer : UserSrc) (b_length : Nat) : Race :=
  { dev := s, a := WriteCall.start a_buffer a_length, b := WriteCall.start b_buffer b_length }

/-- The schedule in which call `a` runs to its return before call `b` is entered. -/
def a_then_b : List Bool := [true, true, true, false, false, false]

/-- The schedule in which call `b` runs to its return before call `a` is entered. -/
def b_then_a : List Bool := [false, false, false, true, true, true]

/-- What holds of two overlapping calls with arguments `(A, la)` and `(B, lb)`
at every point of every schedule: the arguments stay, a call that has returned
returned its length, and once either call has returned `buffer_pointer` is one
of the two lengths. -/
def RaceInv (A : UserSrc) (la : Nat) (B : UserSrc) (lb : Nat) (r : Race) : Prop :=
  (r.a.buffer = A ∧ r.a.length = la ∧ ∀ ret, r.a.ret? = some ret → ret = (la : Int)) ∧
  (r.b.buffer = B ∧ r.b.length = lb ∧ ∀ ret, r.b.ret? = some ret → ret = (lb : Int)) ∧
  (r.a.ret?.isSome = true ∨ r.b.ret?.isSome = true →
    r.dev.buffer_pointer = la ∨ r.dev.buffer_pointer = lb)

/-! ## Conversions are the identity on values in range -/

theorem to_size_t_of_range (x : Int) (h0 : 0 ≤ x) (h1 : x < 2 ^ 63) :
    to_size_t x = x.toNat := by
  unfold to_size_t
  omega

theorem to_size_t_natCast (n : Nat) (h : n < 2 ^ 64) : to_size_t (n : Int) = n := by
  unfold to_size_t
  omega

theorem to_int_of_small (n : Nat) (h : n < 2 ^ 31) : to_int n = (n : Int) := by
  unfold to_int
  have : n % 2 ^ 32 = n := Nat.mod_eq_of_lt (by omega)
  rw [this, if_pos h]

theorem to_s64_of_range (x : Int) (h0 : -2 ^ 63 ≤ x) (h1 : x < 2 ^ 63) : to_s64 x = x := by
  unfold to_s64
  omega

/-! ## What one call does -/

theorem device_write_too_large (s : Device) (buffer : UserSrc) (length : Nat) (offset : Int)
    (h : sizeof_device_buffer ≤ length) :
    device_write s buffer length offset = { ret := -EINVAL, offset := offset, dev := s } := by
  unfold device_write
  rw [dif_pos h]

theorem device_write_ok (s : Device) (buffer : UserSrc) (length : Nat) (offset : Int)
    (hlen : length < sizeof_device_buffer) (hsrc : length ≤ buffer.length) :
    (device_write s buffer length offset).ret = (length : Int) ∧
    (device_write s buffer length offset).offset = offset ∧
    (device_write s buffer length offset).dev.buffer_pointer = length ∧
    (device_write s buffer length offset).dev.device_buffer
      = buffer.take length ++ s.device_buffer.drop length := by
  have hmin : min length buffer.length = length := Nat.min_eq_left hsrc
  have hs64 : to_s64 (length : Int) = (length : Int) := by
    apply to_s64_of_range <;> simp only [sizeof_device_buffer] at hlen <;> omega
  unfold device_write
  rw [dif_neg (by omega)]
  simp [copy_in, copy_from_user, hmin, hs64]

theorem device_write_fault (s : Device) (buffer : UserSrc) (length : Nat) (offset : Int)
    (hlen : length < sizeof_device_buffer) (hsrc : buffer.length < length) :
    (device_write s buffer length offset).ret = -EFAULT ∧
    (device_write s buffer length offset).offset = offset ∧
    (device_write s buffer length offset).dev.buffer_pointer = s.buffer_pointer ∧
    (device_write s buffer length offset).dev.device_buffer
      = buffer ++ List.replicate (length - buffer.length) 0 ++ s.device_buffer.drop length := by
  have hmin : min length buffer.length = buffer.length := Nat.min_eq_right (by omega)
  have hres : length - buffer.length ≠ 0 := by omega
  unfold device_write
  rw [dif_neg (by omega)]
  simp [copy_in, copy_from_user, hmin, hres]

theorem device_read_eof (s : Device) (buffer : UserDst) (length : Nat) (offset : Int)
    (h : s.buffer_pointer ≤ to_size_t offset) :
    device_read s buffer length offset = { ret := 0, data := [], offset := offset, dev := s } := by
  unfold device_read
  rw [if_pos h]

theorem device_read_negative_offset (s : Device) (buffer : UserDst) (length : Nat)
    (offset : Int) (hinv : s.buffer_pointer ≤ sizeof_device_buffer)
    (hlo : -2 ^ 63 ≤ offset) (hneg : offset < 0) :
    device_read s buffer length offset = { ret := 0, data := [], offset := offset, dev := s } := by
  apply device_read_eof
  simp only [sizeof_device_buffer] at hinv
  unfold to_size_t
  omega

theorem device_read_ok (s : Device) (buffer : UserDst) (length : Nat) (offset : Int)
    (hinv : s.buffer_pointer ≤ sizeof_device_buffer) (h0 : 0 ≤ offset)
    (hlt : offset < s.buffer_pointer)
    (hdst : min length (s.buffer_pointer - offset.toNat) ≤ buffer.writable) :
    device_read s buffer length offset =
      { ret := (min length (s.buffer_pointer - offset.toNat) : Nat)
        data := (s.device_buffer.drop offset.toNat).take
                  (min length (s.buffer_pointer - offset.toNat))
        offset := offset + (min length (s.buffer_pointer - offset.toNat) : Nat)
        dev := s } := by
  simp only [sizeof_device_buffer] at hinv
  have hsz : to_size_t offset = offset.toNat := to_size_t_of_range offset h0 (by omega)
  have hk : min length (s.buffer_pointer - offset.toNat) ≤ 256 := by omega
  have hint : to_int (min length (s.buffer_pointer - offset.toNat))
      = ((min length (s.buffer_pointer - offset.toNat) : Nat) : Int) :=
    to_int_of_small _ (by omega)
  have hback : to_size_t ((min length (s.buffer_pointer - offset.toNat) : Nat) : Int)
      = min length (s.buffer_pointer - offset.toNat) := to_size_t_natCast _ (by omega)
  have hoff : to_s64 (offset + ((min length (s.buffer_pointer - offset.toNat) : Nat) : Int))
      = offset + ((min length (s.buffer_pointer - offset.toNat) : Nat) : Int) := by
    apply to_s64_of_range <;> omega
  unfold device_read bytes_read
  rw [if_neg (by omega)]
  simp only [hsz, hint, hback, hoff, copy_to_user, Nat.min_eq_left hdst, Nat.sub_self, ne_eq,
    not_true_eq_false, if_false]

theorem device_read_fault (s : Device) (buffer : UserDst) (length : Nat) (offset : Int)
    (hinv : s.buffer_pointer ≤ sizeof_device_buffer) (h0 : 0 ≤ offset)
    (hlt : offset < s.buffer_pointer)
    (hdst : buffer.writable < min length (s.buffer_pointer - offset.toNat)) :
    (device_read s buffer length offset).ret = -EFAULT := by
  simp only [sizeof_device_buffer] at hinv
  have hsz : to_size_t offset = offset.toNat := to_size_t_of_range offset h0 (by omega)
  have hint : to_int (min length (s.buffer_pointer - offset.toNat))
      = ((min length (s.buffer_pointer - offset.toNat) : Nat) : Int) :=
    to_int_of_small _ (by omega)
  have hback : to_size_t ((min length (s.buffer_pointer - offset.toNat) : Nat) : Int)
      = min length (s.buffer_pointer - offset.toNat) := to_size_t_natCast _ (by omega)
  have hres : min length (s.buffer_pointer - offset.toNat)
      - min (min length (s.buffer_pointer - offset.toNat)) buffer.writable ≠ 0 := by omega
  unfold device_read bytes_read
  rw [if_neg (by omega)]
  simp only [hsz, hint, hback, copy_to_user, ne_eq, hres, not_false_eq_true, if_true]

theorem slice_length (s : Device) (off k : Nat) (hinv : s.buffer_pointer ≤ sizeof_device_buffer)
    (hk : k ≤ s.buffer_pointer - off) : ((s.device_buffer.drop off).take k).length = k := by
  have hs := s.buffer_size
  simp only [List.length_take, List.length_drop]
  omega

theorem device_read_dev (s : Device) (buffer : UserDst) (length : Nat) (offset : Int) :
    (device_read s buffer length offset).dev = s := by
  unfold device_read
  split
  · rfl
  · dsimp only
    split <;> rfl

theorem device_write_bound (s : Device) (buffer : UserSrc) (length : Nat) (offset : Int)
    (h : s.buffer_pointer < sizeof_device_buffer) :
    (device_write s buffer length offset).dev.buffer_pointer < sizeof_device_buffer := by
  rcases Nat.lt_or_ge length sizeof_device_buffer with hlt | hge
  · rcases Nat.lt_or_ge buffer.length length with hsrc | hsrc
    · rw [(device_write_fault s buffer length offset hlt hsrc).2.2.1]
      exact h
    · rw [(device_write_ok s buffer length offset hlt hsrc).2.2.1]
      exact hlt
  · rw [device_write_too_large s buffer length offset hge]
    exact h

theorem fops_bound (k : Sys) (c : Call) (h : k.dev.buffer_pointer < sizeof_device_buffer) :
    (fops k c).dev.buffer_pointer < sizeof_device_buffer := by
  cases c with
  | «open» => exact h
  | release => exact h
  | read buffer length offset =>
    show (device_read k.dev buffer length offset).dev.buffer_pointer < _
    rw [device_read_dev]
    exact h
  | write buffer length offset => exact device_write_bound k.dev buffer length offset h

theorem run_bound (calls : List Call) (k : Sys)
    (h : k.dev.buffer_pointer < sizeof_device_buffer) :
    (run k calls).dev.buffer_pointer < sizeof_device_buffer := by
  induction calls generalizing k with
  | nil => exact h
  | cons c cs ih => exact ih (fops k c) (fops_bound k c h)

theorem device_open_registered (n : Nat) (m : Module) (h : Registered n m) :
    Registered (n + 1) (device_open m).2 := by
  obtain ⟨hl, hr⟩ := h
  have hne : m.refcnt ≠ 0 := by rw [hr, MODULE_REF_BASE]; omega
  simp only [device_open, try_module_get, hl, Bool.true_and, bne_iff_ne, ne_eq, hne,
    not_false_eq_true, decide_True, if_true]
  exact ⟨rfl, by simp only [hr]; omega⟩

theorem device_release_registered (n : Nat) (m : Module) (h : Registered (n + 1) m) :
    Registered n (device_release m).2 := by
  obtain ⟨hl, hr⟩ := h
  have hpos : 0 < m.refcnt := by rw [hr]; omega
  simp only [device_release, module_put, hpos, if_true]
  exact ⟨hl, by simp only [hr]; omega⟩

theorem open_sessions_registered (N n : Nat) (m : Module) (h : Registered n m) :
    Registered (n + N) (open_sessions N m) := by
  induction N generalizing n m with
  | zero => exact h
  | succ N ih =>
    have h1 := ih (n + 1) (device_open m).2 (device_open_registered n m h)
    have e : n + 1 + N = n + (N + 1) := by omega
    rw [e] at h1
    exact h1

theorem close_sessions_registered (N n : Nat) (m : Module) (h : Registered (n + N) m) :
    Registered n (close_sessions N m) := by
  induction N generalizing m with
  | zero => exact h
  | succ N ih => exact ih (device_release m).2 (device_release_registered (n + N) m h)

theorem ceil_div_step (c d : Nat) (hc : 1 ≤ c) (hd : 1 ≤ d) :
    (d + c - 1) / c = (d - min c d + c - 1) / c + 1 := by
  have h1 : (d + c - 1) / c = (d - 1) / c + 1 := by
    have e : d + c - 1 = d - 1 + c := by omega
    rw [e, Nat.add_div_right _ (by omega)]
  rw [h1]
  congr 1
  rcases Nat.lt_or_ge d c with hlt | hge
  · rw [Nat.min_eq_right (Nat.le_of_lt hlt)]
    rw [Nat.div_eq_of_lt (by omega), Nat.div_eq_of_lt (by omega)]
  · rw [Nat.min_eq_left hge]
    congr 1
    omega

theorem slice_append_rest (buf : List Byte) (L o k : Nat) (h : o + k ≤ L) :
    (buf.drop o).take k ++ (buf.take L).drop (o + k) = (buf.take L).drop o := by
  have e1 : (buf.drop o).take k = ((buf.take L).drop o).take k := by
    rw [List.drop_take, List.take_take, Nat.min_eq_left (by omega)]
  have e2 : (buf.take L).drop (o + k) = ((buf.take L).drop o).drop k := by
    rw [List.drop_drop, Nat.add_comm]
  rw [e1, e2, List.take_append_drop]

theorem read_chunks_from (s : Device) (c : Nat)
    (hinv : s.buffer_pointer ≤ sizeof_device_buffer) (hc : 1 ≤ c) (fuel : Nat) :
    ∀ o : Nat, o ≤ s.buffer_pointer → (s.buffer_pointer - o + c - 1) / c < fuel →
      ∃ chunks : List (List Byte),
        read_chunks s c fuel (o : Int) = some (chunks, (s.buffer_pointer : Int)) ∧
        chunks.length = (s.buffer_pointer - o + c - 1) / c ∧
        (∀ ch ∈ chunks, ch ≠ [] ∧ ch.length ≤ c) ∧
        chunks.flatten = (s.device_buffer.take s.buffer_pointer).drop o := by
  induction fuel with
  | zero => intro o _ hf; exact absurd hf (Nat.not_lt_zero _)
  | succ fuel ih =>
    intro o ho hf
    have hinv' : s.buffer_pointer ≤ 256 := hinv
    rcases Nat.eq_or_lt_of_le ho with heq | hlt
    · subst heq
      refine ⟨[], ?_, ?_, ?_, ?_⟩
      · have hz : s.buffer_pointer ≤ to_size_t (s.buffer_pointer : Int) := by
          rw [to_size_t_natCast _ (by omega)]
        simp only [read_chunks, device_read_eof s ⟨c⟩ c _ hz, if_true]
      · rw [Nat.sub_self, Nat.zero_add, Nat.div_eq_of_lt (by omega)]
        rfl
      · intro ch hch
        cases hch
      · rw [List.drop_eq_nil_of_le (by simp)]
        rfl
    · have hk1 : 1 ≤ min c (s.buffer_pointer - o) := by
        rw [Nat.le_min]; omega
      have hkc : min c (s.buffer_pointer - o) ≤ c := Nat.min_le_left _ _
      have hkd : min c (s.buffer_pointer - o) ≤ s.buffer_pointer - o := Nat.min_le_right _ _
      have hstep := ceil_div_step c (s.buffer_pointer - o) hc (by omega)
      have hnext : s.buffer_pointer - (o + min c (s.buffer_pointer - o))
          = s.buffer_pointer - o - min c (s.buffer_pointer - o) := by omega
      obtain ⟨chunks, hrun, hlen, hall, hjoin⟩ :=
        ih (o + min c (s.buffer_pointer - o)) (by omega) (by rw [hnext]; omega)
      have hread := device_read_ok s ⟨c⟩ c (o : Int) hinv (by omega) (by exact_mod_cast hlt)
        (by simp)
      simp only [Int.toNat_ofNat] at hread
      have hne : ((min c (s.buffer_pointer - o) : Nat) : Int) ≠ 0 := by omega
      refine ⟨(s.device_buffer.drop o).take (min c (s.buffer_pointer - o)) :: chunks,
        ?_, ?_, ?_, ?_⟩
      · simp only [read_chunks, hread, hne, if_false]
        have hcast : (o : Int) + ((min c (s.buffer_pointer - o) : Nat) : Int)
            = ((o + min c (s.buffer_pointer - o) : Nat) : Int) := by push_cast; rfl
        rw [hcast, hrun]
      · rw [List.length_cons, hlen, hnext, hstep]
      · intro ch hch
        rcases List.mem_cons.mp hch with h | h
        · have hl := slice_length s o (min c (s.buffer_pointer - o)) hinv hkd
          subst h
          refine ⟨?_, by rw [hl]; exact hkc⟩
          intro hnil
          rw [hnil] at hl
          simp at hl
          omega
        · exact hall ch h
      · rw [List.flatten_cons, hjoin]
        exact slice_append_rest s.device_buffer s.buffer_pointer o _ (by omega)

/-! ## Overlapping calls, statement by statement -/

theorem write_step_check_large (s : Device) (buffer : UserSrc) (length : Nat)
    (h : length ≥ sizeof_device_buffer) :
    write_step s ⟨buffer, length, WritePc.check⟩
      = (s, ⟨buffer, length, WritePc.returned (-EINVAL)⟩) := by
  simp only [write_step, dif_pos h]

theorem write_step_check_small (s : Device) (buffer : UserSrc) (length : Nat)
    (h : ¬ length ≥ sizeof_device_buffer) :
    write_step s ⟨buffer, length, WritePc.check⟩ = (s, ⟨buffer, length, WritePc.copy h⟩) := by
  simp only [write_step, dif_neg h]

theorem write_step_returned (s : Device) (buffer : UserSrc) (length : Nat) (ret : Int) :
    write_step s ⟨buffer, length, WritePc.returned ret⟩
      = (s, ⟨buffer, length, WritePc.returned ret⟩) := rfl

theorem write_step_copy_fault (s : Device) (buffer : UserSrc) (length : Nat)
    (h : ¬ length ≥ sizeof_device_buffer)
    (hc : (copy_from_user s.device_buffer buffer length).2 ≠ 0) :
    write_step s ⟨buffer, length, WritePc.copy h⟩
      = (copy_in s buffer length h, ⟨buffer, length, WritePc.returned (-EFAULT)⟩) := by
  simp only [write_step, if_pos hc]

theorem write_step_copy_ok (s : Device) (buffer : UserSrc) (length : Nat)
    (h : ¬ length ≥ sizeof_device_buffer)
    (hc : (copy_from_user s.device_buffer buffer length).2 = 0) :
    write_step s ⟨buffer, length, WritePc.copy h⟩
      = (copy_in s buffer length h, ⟨buffer, length, WritePc.store⟩) := by
  simp only [write_step, hc, ne_eq, not_true_eq_false, if_false]

theorem write_step_store (s : Device) (buffer : UserSrc) (length : Nat) :
    write_step s ⟨buffer, length, WritePc.store⟩
      = ({ s with buffer_pointer := length },
          ⟨buffer, length, WritePc.returned (to_s64 length)⟩) := rfl

theorem write_call_alone_eq (s : Device) (buffer : UserSrc) (length : Nat) (offset : Int) :
    (write_call_alone s (WriteCall.start buffer length)).1
      = (device_write s buffer length offset).dev ∧
    (write_call_alone s (WriteCall.start buffer length)).2.ret?
      = some (device_write s buffer length offset).ret := by
  unfold write_call_alone WriteCall.start
  by_cases h : length ≥ sizeof_device_buffer
  · rw [write_step_check_large s buffer length h]
    dsimp only
    rw [write_step_returned, device_write_too_large s buffer length offset h]
    exact ⟨rfl, rfl⟩
  · rw [write_step_check_small s buffer length h]
    dsimp only
    by_cases hc : (copy_from_user s.device_buffer buffer length).2 = 0
    · rw [write_step_copy_ok s buffer length h hc]
      dsimp only
      rw [write_step_store]
      simp only [device_write, dif_neg h, hc, ne_eq, not_true_eq_false, if_false,
        WriteCall.ret?, and_self]
    · rw [write_step_copy_fault s buffer length h hc]
      dsimp only
      rw [write_step_returned]
      simp only [device_write, dif_neg h, hc, ne_eq, not_false_eq_true, if_true,
        WriteCall.ret?, and_self]

theorem race_run_a_then_b (s : Device) (a b : WriteCall) :
    Race.run { dev := s, a := a, b := b } a_then_b
      = { dev := (write_call_alone (write_call_alone s a).1 b).1
          a := (write_call_alone s a).2
          b := (write_call_alone (write_call_alone s a).1 b).2 } := rfl

theorem race_run_b_then_a (s : Device) (a b : WriteCall) :
    Race.run { dev := s, a := a, b := b } b_then_a
      = { dev := (write_call_alone (write_call_alone s b).1 a).1
          a := (write_call_alone (write_call_alone s b).1 a).2
          b := (write_call_alone s b).2 } := rfl

theorem front_after_write (s : Device) (buffer : UserSrc) (length : Nat) (offset : Int)
    (hlen : length < sizeof_device_buffer) (hsrc : length ≤ buffer.length) :
    (device_write s buffer length offset).dev.device_buffer.take
        (device_write s buffer length offset).dev.buffer_pointer = buffer.take length := by
  obtain ⟨-, -, hbp, hbuf⟩ := device_write_ok s buffer length offset hlen hsrc
  rw [hbp, hbuf, List.take_append_of_le_length (by simp; omega)]
  rw [List.take_of_length_le (by simp)]

theorem serial_writes (s : Device) (A : UserSrc) (la : Nat) (B : UserSrc) (lb : Nat)
    (hla : la < sizeof_device_buffer) (hA : la ≤ A.length)
    (hlb : lb < sizeof_device_buffer) (hB : lb ≤ B.length) :
    (write_call_alone s (WriteCall.start A la)).2.ret? = some (la : Int) ∧
    (write_call_alone (write_call_alone s (WriteCall.start A la)).1
      (WriteCall.start B lb)).2.ret? = some (lb : Int) ∧
    (write_call_alone (write_call_alone s (WriteCall.start A la)).1
      (WriteCall.start B lb)).1.buffer_pointer = lb ∧
    (write_call_alone (write_call_alone s (WriteCall.start A la)).1
      (WriteCall.start B lb)).1.device_buffer.take
        (write_call_alone (write_call_alone s (WriteCall.start A la)).1
          (WriteCall.start B lb)).1.buffer_pointer = B.take lb := by
  obtain ⟨ha1, ha2⟩ := write_call_alone_eq s A la 0
  obtain ⟨hb1, hb2⟩ := write_call_alone_eq (device_write s A la 0).dev B lb 0
  rw [ha2, ha1, hb2, hb1]
  exact ⟨by rw [(device_write_ok s A la 0 hla hA).1],
    by rw [(device_write_ok _ B lb 0 hlb hB).1],
    (device_write_ok _ B lb 0 hlb hB).2.2.1,
    front_after_write _ B lb 0 hlb hB⟩

theorem write_step_progress (A : UserSrc) (la : Nat) (hla : la < sizeof_device_buffer)
    (hA : la ≤ A.length) (s : Device) (w : WriteCall)
    (hw : w.buffer = A ∧ w.length = la ∧ ∀ ret, w.ret? = some ret → ret = (la : Int)) :
    ((write_step s w).2.buffer = A ∧ (write_step s w).2.length = la ∧
      ∀ ret, (write_step s w).2.ret? = some ret → ret = (la : Int)) ∧
    (((write_step s w).1.buffer_pointer = s.buffer_pointer ∧
        ((write_step s w).2.ret?.isSome = true → w.ret?.isSome = true)) ∨
      (write_step s w).1.buffer_pointer = la) := by
  obtain ⟨buffer, length, pc⟩ := w
  obtain ⟨hb, hl, hr⟩ := hw
  simp only at hb hl
  subst hb hl
  have hs64 : to_s64 (length : Int) = (length : Int) := by
    apply to_s64_of_range <;> simp only [sizeof_device_buffer] at hla <;> omega
  cases pc with
  | check =>
    rw [write_step_check_small s buffer length (Nat.not_le.mpr hla)]
    exact ⟨⟨rfl, rfl, fun ret h => by simp [WriteCall.ret?] at h⟩,
      Or.inl ⟨rfl, fun h => by simp [WriteCall.ret?] at h⟩⟩
  | copy h =>
    have hc : (copy_from_user s.device_buffer buffer length).2 = 0 := by
      simp only [copy_from_user]
      omega
    rw [write_step_copy_ok s buffer length h hc]
    exact ⟨⟨rfl, rfl, fun ret h => by simp [WriteCall.ret?] at h⟩,
      Or.inl ⟨rfl, fun h => by simp [WriteCall.ret?] at h⟩⟩
  | store =>
    rw [write_step_store, hs64]
    refine ⟨⟨rfl, rfl, fun ret h => ?_⟩, Or.inr rfl⟩
    simp only [WriteCall.ret?, Option.some.injEq] at h
    exact h.symm
  | returned ret =>
    exact ⟨⟨rfl, rfl, hr⟩, Or.inl ⟨rfl, fun h => h⟩⟩

theorem race_step_inv (A : UserSrc) (la : Nat) (B : UserSrc) (lb : Nat)
    (hla : la < sizeof_device_buffer) (hA : la ≤ A.length)
    (hlb : lb < sizeof_device_buffer) (hB : lb ≤ B.length)
    (r : Race) (pick_a : Bool) (h : RaceInv A la B lb r) :
    RaceInv A la B lb (r.step pick_a) := by
  obtain ⟨ha, hb, hbp⟩ := h
  cases pick_a with
  | true =>
    obtain ⟨ha', hor⟩ := write_step_progress A la hla hA r.dev r.a ha
    refine ⟨ha', hb, fun hsome => ?_⟩
    rcases hor with ⟨hsame, hback⟩ | hnew
    · have : r.dev.buffer_pointer = la ∨ r.dev.buffer_pointer = lb :=
        hbp (hsome.imp hback id)
      simpa [Race.step, hsame] using this
    · exact Or.inl hnew
  | false =>
    obtain ⟨hb', hor⟩ := write_step_progress B lb hlb hB r.dev r.b hb
    refine ⟨ha, hb', fun hsome => ?_⟩
    rcases hor with ⟨hsame, hback⟩ | hnew
    · have : r.dev.buffer_pointer = la ∨ r.dev.buffer_pointer = lb :=
        hbp (hsome.imp id hback)
      simpa [Race.step, hsame] using this
    · exact Or.inr hnew

theorem race_run_inv (A : UserSrc) (la : Nat) (B : UserSrc) (lb : Nat)
    (hla : la < sizeof_device_buffer) (hA : la ≤ A.length)
    (hlb : lb < sizeof_device_buffer) (hB : lb ≤ B.length)
    (schedule : List Bool) (r : Race) (h : RaceInv A la B lb r) :
    RaceInv A la B lb (r.run schedule) := by
  induction schedule generalizing r with
  | nil => exact h
  | cons p ps ih => exact ih (r.step p) (race_step_inv A la B lb hla hA hlb hB r p h)

/-! ## Module load: error pointers and concrete runs -/

theorem PTR_ERR_ERR_PTR (e : Int) (h0 : -(MAX_ERRNO : Int) ≤ e) (h1 : e < 0) :
    IS_ERR (ERR_PTR e) = true ∧ long_to_int (PTR_ERR (ERR_PTR e)) = e := by
  simp only [MAX_ERRNO, Nat.cast_ofNat] at h0
  have hp : ERR_PTR e = (e + 2 ^ 64).toNat := by
    unfold ERR_PTR to_size_t
    omega
  have hlong : PTR_ERR (ERR_PTR e) = e := by
    unfold PTR_ERR to_s64
    rw [hp]
    omega
  refine ⟨?_, ?_⟩
  · simp only [IS_ERR, MAX_ERRNO, decide_eq_true_eq]
    rw [hp]
    omega
  · rw [hlong]
    unfold long_to_int to_int to_size_t
    have h32 : (e % 2 ^ 64).toNat % 2 ^ 32 = (e + 2 ^ 32).toNat := by omega
    rw [h32]
    split <;> omega

theorem chardev_exit_unwinds (env : Registrar) :
    chardev_exit env.alloc_chrdev_region.2 env.class_create = unwound (load_steps env) 4 := rfl

/-- A load in which `device_create` fails with `-ENOMEM` (-12): the class is
destroyed, then the device number released, and -12 is returned. -/
theorem chardev_init_node_fails :
    chardev_init { alloc_chrdev_region := (0, 240), class_create := 4096,
                   device_create := ERR_PTR (-12), cdev_add := 0 }
      = { ret := -12
          calls := [KCall.alloc_chrdev_region 0 1 DEVICE_NAME, KCall.class_create CLASS_NAME,
                    KCall.device_create 4096 240 DEVICE_NAME, KCall.class_destroy 4096,
                    KCall.unregister_chrdev_region 240 1]
          log := ["Failed to create device\n"] } := by
  decide

/-- A load in which every step succeeds. -/
theorem chardev_init_succeeds :
    chardev_init { alloc_chrdev_region := (0, 240), class_create := 4096,
                   device_create := 8192, cdev_add := 0 }
      = { ret := 0
          calls := [KCall.alloc_chrdev_region 0 1 DEVICE_NAME, KCall.class_create CLASS_NAME,
                    KCall.device_create 4096 240 DEVICE_NAME, KCall.cdev_init,
                    KCall.cdev_add 240 1]
          log := ["Character device driver loaded successfully\n"] } := by
  decide

/-! ## The claims -/

/-- C1.  Write/read round trip from any prior state: for every device state `s`
(whatever was written before), every payload `P` shorter than 256 bytes (255
included) lying readable in the caller's memory (followed there by any `rest`),
and every `max_len ≥ len P` with room for the bytes in the reader's buffer,
`device_write` returns `len P` and a following `device_read` at offset 0 with
`max_len` returns `len P` and delivers exactly the bytes of `P`. -/
theorem write_read_roundtrip (s : Device) (P rest : List Byte) (wpos : Int)
    (dst : UserDst) (max_len : Nat)
    (hP : P.length < 256) (hmax : P.length ≤ max_len) (hdst : P.length ≤ dst.writable) :
    (device_write s (P ++ rest) P.length wpos).ret = (P.length : Int) ∧
    (device_read (device_write s (P ++ rest) P.length wpos).dev dst max_len 0).ret
      = (P.length : Int) ∧
    (device_read (device_write s (P ++ rest) P.length wpos).dev dst max_len 0).data = P := by
  have hsrc : P.length ≤ (P ++ rest).length := by simp
  obtain ⟨hret, -, hbp, hbuf⟩ := device_write_ok s (P ++ rest) P.length wpos hP hsrc
  refine ⟨hret, ?_⟩
  rcases Nat.eq_zero_or_pos P.length with hz | hpos
  · have hnil : P = [] := List.length_eq_zero.mp hz
    rw [device_read_eof _ _ _ _ (by rw [hbp, hz]; exact Nat.zero_le _)]
    simp [hnil]
  · have hk : min max_len ((device_write s (P ++ rest) P.length wpos).dev.buffer_pointer
        - (0 : Int).toNat) = P.length := by
      rw [hbp]; simp [hmax]
    rw [device_read_ok _ dst max_len 0 (by rw [hbp]; exact Nat.le_of_lt hP) (le_refl _)
      (by rw [hbp]; exact_mod_cast hpos) (by rw [hk]; exact hdst)]
    simp only [hk, hbuf]
    simp

/-- The end-to-end example of C1: from the state left by writing "hello",
writing "hi" returns 2 and `read(0, 10)` then returns the 2 bytes "hi". -/
theorem write_read_roundtrip_witness :
    hi.length < 256 ∧
    (device_write holding_hello (hi ++ []) hi.length 0).ret = 2 ∧
    (device_read (device_write holding_hello (hi ++ []) hi.length 0).dev ⟨10⟩ 10 0).ret = 2 ∧
    (device_read (device_write holding_hello (hi ++ []) hi.length 0).dev ⟨10⟩ 10 0).data
      = [104, 105] :=
  ⟨by decide,
   write_read_roundtrip holding_hello hi [] 0 ⟨10⟩ 10 (by decide) (by decide) (by decide)⟩

/-- C2.  Oversized write is rejected atomically: for every device state and
every write of 256 bytes or more (exactly 256 included), whatever the caller's
memory holds, `device_write` returns `-EINVAL` (TooLarge) and the globals
after the call (every byte of `device_buffer`, and `buffer_pointer`) are the
ones before it. -/
theorem oversized_write_rejected (s : Device) (buffer : UserSrc) (length : Nat) (offset : Int)
    (h : 256 ≤ length) :
    (device_write s buffer length offset).ret = -EINVAL ∧
    (device_write s buffer length offset).dev = s ∧
    (device_write s buffer length offset).dev.device_buffer = s.device_buffer ∧
    (device_write s buffer length offset).dev.buffer_pointer = s.buffer_pointer := by
  rw [device_write_too_large s buffer length offset h]
  exact ⟨rfl, rfl, rfl, rfl⟩

/-- Boundary of C2: a write of exactly 256 bytes onto the content "hello". -/
theorem oversized_write_rejected_witness :
    256 ≤ 256 ∧
    (device_write holding_hello (List.replicate 256 65) 256 0).ret = -EINVAL ∧
    (device_write holding_hello (List.replicate 256 65) 256 0).dev = holding_hello ∧
    (device_write holding_hello (List.replicate 256 65) 256 0).dev.device_buffer
      = holding_hello.device_buffer ∧
    (device_write holding_hello (List.replicate 256 65) 256 0).dev.buffer_pointer
      = holding_hello.buffer_pointer :=
  ⟨le_refl _, oversized_write_rejected holding_hello (List.replicate 256 65) 256 0 (le_refl _)⟩

/-- C3.  `device_read` equals the reference read: for every device state
(`buffer_pointer` within the 256-byte array), every non-negative session
offset and every `max_len`, when the copy to the caller succeeds (the call does
not return `-EFAULT`), the call delivers the reference result for
`(device_buffer, buffer_pointer, offset, max_len)`, returns its byte count,
advances the session offset by that count and leaves the globals unchanged.
So at `offset ≥ buffer_pointer` it returns 0 with nothing delivered and the
offset unchanged, and otherwise it delivers exactly
`k = min max_len (buffer_pointer - offset)` bytes `device_buffer[offset .. offset+k)`,
never more than `max_len`. -/
theorem device_read_refines_reference (s : Device) (dst : UserDst) (max_len : Nat)
    (offset : Int)
    (hinv : s.buffer_pointer ≤ 256) (h0 : 0 ≤ offset) (h63 : offset < 2 ^ 63)
    (hcopy : (device_read s dst max_len offset).ret ≠ -EFAULT) :
    (device_read s dst max_len offset).data
        = reference_read s.device_buffer s.buffer_pointer offset.toNat max_len ∧
    (device_read s dst max_len offset).ret = ((device_read s dst max_len offset).data.length : Int) ∧
    (device_read s dst max_len offset).offset
        = offset + ((device_read s dst max_len offset).data.length : Int) ∧
    (device_read s dst max_len offset).dev = s ∧
    (device_read s dst max_len offset).data.length ≤ max_len ∧
    ((s.buffer_pointer : Int) ≤ offset →
        (device_read s dst max_len offset).ret = 0 ∧
        (device_read s dst max_len offset).data = [] ∧
        (device_read s dst max_len offset).offset = offset) ∧
    (offset < (s.buffer_pointer : Int) →
        (device_read s dst max_len offset).data
          = (s.device_buffer.drop offset.toNat).take (min max_len (s.buffer_pointer - offset.toNat)) ∧
        (device_read s dst max_len offset).data.length
          = min max_len (s.buffer_pointer - offset.toNat)) := by
  have hsz : to_size_t offset = offset.toNat := to_size_t_of_range offset h0 h63
  rcases le_or_lt (s.buffer_pointer : Int) offset with hge | hlt
  · have hge' : s.buffer_pointer ≤ to_size_t offset := by rw [hsz]; omega
    have href : reference_read s.device_buffer s.buffer_pointer offset.toNat max_len = [] := by
      unfold reference_read
      rw [if_pos (by omega)]
    rw [device_read_eof s dst max_len offset hge', href]
    refine ⟨rfl, rfl, by simp, rfl, by simp, fun _ => ⟨rfl, rfl, rfl⟩, fun h => ?_⟩
    omega
  · have hdst : min max_len (s.buffer_pointer - offset.toNat) ≤ dst.writable := by
      by_contra hnot
      exact hcopy (device_read_fault s dst max_len offset hinv h0 hlt (by omega))
    have href : reference_read s.device_buffer s.buffer_pointer offset.toNat max_len
        = (s.device_buffer.drop offset.toNat).take
            (min max_len (s.buffer_pointer - offset.toNat)) := by
      unfold reference_read
      rw [if_neg (by omega)]
    have hlen := slice_length s offset.toNat (min max_len (s.buffer_pointer - offset.toNat))
      hinv (Nat.min_le_right _ _)
    rw [device_read_ok s dst max_len offset hinv h0 hlt hdst, href]
    refine ⟨rfl, ?_, ?_, rfl, ?_, fun h => ?_, fun _ => ⟨rfl, hlen⟩⟩
    · simp only [hlen]
    · simp only [hlen]
    · simp only [hlen]; exact Nat.min_le_left _ _
    · omega

/-- A read of at most 3 bytes at offset 1 of the content "hello" delivers "ell". -/
theorem device_read_refines_reference_witness :
    (device_read holding_hello ⟨3⟩ 3 1).data = [101, 108, 108] ∧
    (device_read holding_hello ⟨3⟩ 3 1).offset = 4 :=
  have h := device_read_refines_reference holding_hello ⟨3⟩ 3 1
    (by decide) (by decide) (by decide) (by decide)
  ⟨h.1.trans (by decide), h.2.2.1.trans (by decide)⟩

/-- C4 as stated fails.  On the content "hello" (valid length 5) a 2-byte write
whose source has one readable byte ('H') returns `-EFAULT`, keeps the valid
length 5, and leaves "H\0llo" as the readable content: the failing call
changed the first `valid_length` bytes of `device_buffer`. -/
theorem failing_write_changes_content :
    (device_write holding_hello [72] 2 0).ret = -EFAULT ∧
    (device_write holding_hello [72] 2 0).dev.buffer_pointer = 5 ∧
    holding_hello.buffer_pointer = 5 ∧
    holding_hello.device_buffer.take 5 = [104, 101, 108, 108, 111] ∧
    (device_write holding_hello [72] 2 0).dev.device_buffer.take 5 = [72, 0, 108, 108, 111] ∧
    ¬ ((device_write holding_hello [72] 2 0).dev.device_buffer.take
          (device_write holding_hello [72] 2 0).dev.buffer_pointer
        = holding_hello.device_buffer.take holding_hello.buffer_pointer) := by
  decide

/-- C4, amended.  Every `device_write` call ends in exactly one of three ways.
Success: the return value is the full requested length (below 256), all of
whose bytes are stored, never a truncated count.  TooLarge: the return value is
`-EINVAL` and the globals are unchanged.  AccessFault: the return value is
`-EFAULT`, `buffer_pointer` is unchanged and every byte of `device_buffer` at
index `length` or above is unchanged (the first `length` bytes hold the part
that was copied, then zeros).  So a call that returns an error never changes
the valid length, and never changes the buffer outside its first `length`
bytes. -/
theorem write_outcomes (s : Device) (buffer : UserSrc) (length : Nat) (offset : Int) :
    ((device_write s buffer length offset).ret = (length : Int) ∧
        length < 256 ∧ length ≤ buffer.length ∧
        (device_write s buffer length offset).dev.buffer_pointer = length ∧
        (device_write s buffer length offset).dev.device_buffer.take length
          = buffer.take length) ∨
    ((device_write s buffer length offset).ret = -EINVAL ∧
        256 ≤ length ∧
        (device_write s buffer length offset).dev = s) ∨
    ((device_write s buffer length offset).ret = -EFAULT ∧
        length < 256 ∧ buffer.length < length ∧
        (device_write s buffer length offset).dev.buffer_pointer = s.buffer_pointer ∧
        (device_write s buffer length offset).dev.device_buffer.drop length
          = s.device_buffer.drop length ∧
        (device_write s buffer length offset).dev.device_buffer.take length
          = buffer ++ List.replicate (length - buffer.length) 0) := by
  rcases Nat.lt_or_ge length 256 with hlt | hge
  · rcases Nat.lt_or_ge buffer.length length with hsrc | hsrc
    · obtain ⟨hret, -, hbp, hbuf⟩ := device_write_fault s buffer length offset hlt hsrc
      refine Or.inr (Or.inr ⟨hret, hlt, hsrc, hbp, ?_, ?_⟩)
      · rw [hbuf, List.drop_append_of_le_length (by simp; omega)]
        rw [List.drop_eq_nil_of_le (by simp; omega)]
        rfl
      · rw [hbuf, List.take_append_of_le_length (by simp; omega)]
        rw [List.take_of_length_le (by simp; omega)]
    · obtain ⟨hret, -, hbp, hbuf⟩ := device_write_ok s buffer length offset hlt hsrc
      refine Or.inl ⟨hret, hlt, hsrc, hbp, ?_⟩
      rw [hbuf, List.take_append_of_le_length (by simp; omega)]
      rw [List.take_of_length_le (by simp)]
  · rw [device_write_too_large s buffer length offset hge]
    exact Or.inr (Or.inl ⟨rfl, hge, rfl⟩)

/-- C5.  `device_write` does not touch the session's read offset: for every
state, caller memory, length and offset the call hands back the offset it was
given, on success and on failure; consequently a session whose offset is at or
beyond the valid length left by the write gets from its next `device_read` the
return value 0 with nothing delivered and its offset still unchanged. -/
theorem write_keeps_offset (s : Device) (buffer : UserSrc) (length : Nat) (offset : Int) :
    (device_write s buffer length offset).offset = offset ∧
    ∀ (dst : UserDst) (max_len : Nat),
      ((device_write s buffer length offset).dev.buffer_pointer : Int) ≤ offset →
      offset < 2 ^ 63 →
      device_read (device_write s buffer length offset).dev dst max_len
          (device_write s buffer length offset).offset
        = { ret := 0, data := [], offset := offset,
            dev := (device_write s buffer length offset).dev } := by
  have hoff : (device_write s buffer length offset).offset = offset := by
    unfold device_write
    split
    · rfl
    · split <;> rfl
  refine ⟨hoff, fun dst max_len hge h63 => ?_⟩
  rw [hoff]
  apply device_read_eof
  rw [to_size_t_of_range offset (by omega) h63]
  omega

/-- A session that has read all of "hello" (offset 5) sees end-of-stream after
"hi" is written, although the new content was never read by it. -/
theorem write_keeps_offset_witness :
    (device_write holding_hello hi 2 5).offset = 5 ∧
    (device_write holding_hello hi 2 5).dev.buffer_pointer = 2 ∧
    (device_read (device_write holding_hello hi 2 5).dev ⟨10⟩ 10
        (device_write holding_hello hi 2 5).offset).ret = 0 :=
  ⟨(write_keeps_offset holding_hello hi 2 5).1, by decide,
   congrArg ReadResult.ret
    ((write_keeps_offset holding_hello hi 2 5).2 ⟨10⟩ 10 (by decide) (by decide))⟩

/-- C7.  Session counting.  `device_open` and `device_release` always return 0.
On a registered device with `n` open sessions `device_open` leaves `n + 1`;
`device_release`, closing one of `n ≥ 1` open sessions, leaves `n - 1`, which
is never below 0; hence for every `N` and every starting count `n`, `N` opens
followed by `N` closes leave the count at `n` again. -/
theorem session_counting (m : Module) (n N : Nat) (h : Registered n m) :
    (∀ m0 : Module, (device_open m0).1 = 0 ∧ (device_release m0).1 = 0) ∧
    Registered (n + 1) (device_open m).2 ∧
    (1 ≤ n → Registered (n - 1) (device_release m).2) ∧
    (∀ k, k ≤ N → Registered (n + N - k) (close_sessions k (open_sessions N m))) ∧
    Registered n (close_sessions N (open_sessions N m)) := by
  refine ⟨fun m0 => ⟨rfl, rfl⟩, device_open_registered n m h, fun hn => ?_, fun k hk => ?_, ?_⟩
  · apply device_release_registered
    have e : n - 1 + 1 = n := by omega
    rw [e]
    exact h
  · apply close_sessions_registered
    have e : n + N - k + k = n + N := by omega
    rw [e]
    exact open_sessions_registered N n m h
  · exact close_sessions_registered N n _ (open_sessions_registered N n m h)

/-- Three opens and three closes on the freshly loaded module. -/
theorem session_counting_witness :
    (device_open Sys.loaded.mod).2.refcnt = MODULE_REF_BASE + 1 ∧
    (close_sessions 3 (open_sessions 3 Sys.loaded.mod)).refcnt = MODULE_REF_BASE + 0 :=
  ⟨(session_counting Sys.loaded.mod 0 3 ⟨rfl, rfl⟩).2.1.2,
   (session_counting Sys.loaded.mod 0 3 ⟨rfl, rfl⟩).2.2.2.2.2⟩

/-- C8.  Capacity invariant: in every state reached from module load by any
sequence of open, release, read and write calls (with any arguments, whether
they succeed or fail) `buffer_pointer ≤ 256` holds (it is a `size_t`, so it is
never negative); and in such a state every read that copies, at any file
position and with any length, copies a byte range `[offset, offset + bytes_read)`
that lies inside the 256-byte buffer. -/
theorem capacity_invariant (calls : List Call) :
    (run Sys.loaded calls).dev.buffer_pointer ≤ 256 ∧
    ∀ (length : Nat) (offset : Int), -2 ^ 63 ≤ offset → offset < 2 ^ 63 →
      to_size_t offset < (run Sys.loaded calls).dev.buffer_pointer →
      0 ≤ offset ∧ 0 ≤ bytes_read (run Sys.loaded calls).dev length offset ∧
      offset + bytes_read (run Sys.loaded calls).dev length offset ≤ 256 ∧
      offset.toNat + to_size_t (bytes_read (run Sys.loaded calls).dev length offset)
        ≤ (run Sys.loaded calls).dev.device_buffer.length := by
  have hb : (run Sys.loaded calls).dev.buffer_pointer < sizeof_device_buffer :=
    run_bound calls Sys.loaded (by decide)
  simp only [sizeof_device_buffer] at hb
  refine ⟨Nat.le_of_lt hb, fun length offset hlo hhi hlt => ?_⟩
  have h0 : 0 ≤ offset := by
    unfold to_size_t at hlt
    omega
  have hsz : to_size_t offset = offset.toNat := to_size_t_of_range offset h0 hhi
  rw [hsz] at hlt
  have hk : bytes_read (run Sys.loaded calls).dev length offset
      = ((min length ((run Sys.loaded calls).dev.buffer_pointer - offset.toNat) : Nat) : Int) := by
    unfold bytes_read
    rw [hsz, to_int_of_small _ (by omega)]
  rw [hk, to_size_t_natCast _ (by omega), (run Sys.loaded calls).dev.buffer_size,
    sizeof_device_buffer]
  omega

/-- After "hello" is written and a session opened, a 10-byte read at position 3
copies the range [3, 5). -/
theorem capacity_invariant_witness :
    (0 : Int) ≤ 3 ∧
    (3 : Int) + bytes_read (run Sys.loaded [Call.write hello 5 0, Call.open]).dev 10 3 ≤ 256 ∧
    bytes_read (run Sys.loaded [Call.write hello 5 0, Call.open]).dev 10 3 = 2 :=
  have h := (capacity_invariant [Call.write hello 5 0, Call.open]).2
    10 3 (by decide) (by decide) (by decide)
  ⟨h.1, h.2.2.1, by decide⟩

/-- C10.  Chunked sequential reading reconstructs the content: for every device
state with valid length `L = buffer_pointer` (within the 256-byte array) and
every chunk size `c ≥ 1`, a session that starts at offset 0 and calls
`device_read` with `max_len = c` until a call returns 0 does get that 0 within
`⌈L / c⌉ + 1` calls, having obtained exactly `⌈L / c⌉` chunks, each non-empty
and of at most `c` bytes, whose concatenation in order is the first `L` bytes
of `device_buffer`; the session offset is then `L`, and every further read at
that offset returns 0 with nothing delivered. -/
theorem chunked_read_reconstructs (s : Device) (c fuel : Nat)
    (hinv : s.buffer_pointer ≤ 256) (hc : 1 ≤ c)
    (hfuel : (s.buffer_pointer + c - 1) / c < fuel) :
    ∃ chunks : List (List Byte),
      read_chunks s c fuel 0 = some (chunks, (s.buffer_pointer : Int)) ∧
      chunks.length = (s.buffer_pointer + c - 1) / c ∧
      (∀ ch ∈ chunks, ch ≠ [] ∧ ch.length ≤ c) ∧
      chunks.flatten = s.device_buffer.take s.buffer_pointer ∧
      ∀ (dst : UserDst) (max_len : Nat),
        device_read s dst max_len (s.buffer_pointer : Int)
          = { ret := 0, data := [], offset := (s.buffer_pointer : Int), dev := s } := by
  obtain ⟨chunks, hrun, hlen, hall, hjoin⟩ :=
    read_chunks_from s c hinv hc fuel 0 (Nat.zero_le _) (by simpa using hfuel)
  refine ⟨chunks, by simpa using hrun, by simpa using hlen, hall, by simpa using hjoin, ?_⟩
  intro dst max_len
  apply device_read_eof
  rw [to_size_t_natCast _ (by omega)]

/-- Reading "hello" two bytes at a time: three chunks "he", "ll", "o". -/
theorem chunked_read_reconstructs_witness :
    ∃ chunks : List (List Byte),
      read_chunks holding_hello 2 4 0
        = some (chunks, 5) ∧
      chunks.length = 3 ∧
      chunks.flatten = [104, 101, 108, 108, 111] := by
  obtain ⟨chunks, h1, h2, -, h4, -⟩ := chunked_read_reconstructs
    holding_hello 2 4
    (by decide) (by decide) (by decide)
  exact ⟨chunks, h1, h2, h4⟩

/-- C6.  Load is all-or-nothing with reverse-order rollback.  `chardev_init`
performs the steps allocate identity (`alloc_chrdev_region`), create class
(`class_create`), create node (`device_create`), bind dispatch table
(`cdev_init` + `cdev_add`) in this order.  When step `i` is the first to fail,
the calls made are exactly those of steps `1..i` followed by the inverses of
steps `1..i-1` in reverse order (each once, none for the failed step, no later
step attempted), and the return value is the error of step `i`.  When no step
fails, the calls are those of the four steps, nothing is undone, and the
return value is 0. -/
theorem chardev_init_rollback (env : Registrar) :
    match first_failure (load_steps env) with
    | none =>
        (chardev_init env).ret = 0 ∧
        (chardev_init env).calls = acquired (load_steps env) 4
    | some i =>
        i < 4 ∧
        ((load_steps env)[i]?).bind (·.error) = some (chardev_init env).ret ∧
        (chardev_init env).calls
          = acquired (load_steps env) (i + 1) ++ unwound (load_steps env) i := by
  by_cases h1 : env.alloc_chrdev_region.1 < 0
  · simp [first_failure, load_steps, chardev_init, acquired, unwound, h1]
  · by_cases h2 : IS_ERR env.class_create = true
    · simp [first_failure, load_steps, chardev_init, acquired, unwound, h1, h2]
    · by_cases h3 : IS_ERR env.device_create = true
      · simp [first_failure, load_steps, chardev_init, acquired, unwound, h1, h2, h3]
      · by_cases h4 : env.cdev_add < 0
        · simp [first_failure, load_steps, chardev_init, acquired, unwound, h1, h2, h3, h4]
        · simp [first_failure, load_steps, chardev_init, acquired, unwound, h1, h2, h3, h4]

/-- C9 as stated fails.  Two overlapping `device_write` calls, `a` with the 4
bytes "AAAA" and `b` with the 2 bytes "BB", scheduled as: `a` tests its length
and copies, `b` runs all three of its statements, `a` assigns
`buffer_pointer`.  Both calls return success (4 and 2), the final valid length
is 4 and the final readable content is "BBAA": neither payload.  And while a
single call writing "HI" over "hello" stands between its copy and its
assignment, a read of 10 bytes at offset 0 returns 5 bytes "HIllo": the valid
length of the earlier write with bytes of the later one. -/
theorem overlapping_writes_tear :
    (Race.run (Race.start Device.init [65, 65, 65, 65] 4 [66, 66] 2)
        [true, true, false, false, false, true]).a.ret? = some 4 ∧
    (Race.run (Race.start Device.init [65, 65, 65, 65] 4 [66, 66] 2)
        [true, true, false, false, false, true]).b.ret? = some 2 ∧
    (Race.run (Race.start Device.init [65, 65, 65, 65] 4 [66, 66] 2)
        [true, true, false, false, false, true]).dev.buffer_pointer = 4 ∧
    (Race.run (Race.start Device.init [65, 65, 65, 65] 4 [66, 66] 2)
        [true, true, false, false, false, true]).dev.device_buffer.take 4 = [66, 66, 65, 65] ∧
    ¬ ((Race.run (Race.start Device.init [65, 65, 65, 65] 4 [66, 66] 2)
          [true, true, false, false, false, true]).dev.device_buffer.take
          (Race.run (Race.start Device.init [65, 65, 65, 65] 4 [66, 66] 2)
            [true, true, false, false, false, true]).dev.buffer_pointer = [65, 65, 65, 65] ∨
       (Race.run (Race.start Device.init [65, 65, 65, 65] 4 [66, 66] 2)
          [true, true, false, false, false, true]).dev.device_buffer.take
          (Race.run (Race.start Device.init [65, 65, 65, 65] 4 [66, 66] 2)
            [true, true, false, false, false, true]).dev.buffer_pointer = [66, 66]) ∧
    (device_read (Race.run (Race.start holding_hello
        [72, 73] 2 [] 0) [true, true]).dev ⟨10⟩ 10 0).ret = 5 ∧
    (device_read (Race.run (Race.start holding_hello
        [72, 73] 2 [] 0) [true, true]).dev ⟨10⟩ 10 0).data = [72, 73, 108, 108, 111] := by
  decide

/-- C9, amended.  For every prior state and every pair of payloads `A` and `B`
(each shorter than 256 bytes and readable in the caller's memory) written by
two `device_write` calls: when the calls do not overlap (`a` returns before `b`
is entered, or `b` before `a`) both return their lengths, the final readable
content is entirely the payload of the later call and `buffer_pointer` is its
length; and under every interleaving of the statements of the two calls, once
either call has returned `buffer_pointer` is the length of `A` or the length
of `B`. -/
theorem serial_writes_do_not_tear (s : Device) (A B : List Byte) (rest_a rest_b : List Byte)
    (hA : A.length < 256) (hB : B.length < 256) :
    ((Race.run (Race.start s (A ++ rest_a) A.length (B ++ rest_b) B.length) a_then_b).a.ret?
        = some (A.length : Int) ∧
      (Race.run (Race.start s (A ++ rest_a) A.length (B ++ rest_b) B.length) a_then_b).b.ret?
        = some (B.length : Int) ∧
      (Race.run (Race.start s (A ++ rest_a) A.length (B ++ rest_b) B.length)
        a_then_b).dev.buffer_pointer = B.length ∧
      (Race.run (Race.start s (A ++ rest_a) A.length (B ++ rest_b) B.length)
        a_then_b).dev.device_buffer.take
          (Race.run (Race.start s (A ++ rest_a) A.length (B ++ rest_b) B.length)
            a_then_b).dev.buffer_pointer = B) ∧
    ((Race.run (Race.start s (A ++ rest_a) A.length (B ++ rest_b) B.length) b_then_a).a.ret?
        = some (A.length : Int) ∧
      (Race.run (Race.start s (A ++ rest_a) A.length (B ++ rest_b) B.length) b_then_a).b.ret?
        = some (B.length : Int) ∧
      (Race.run (Race.start s (A ++ rest_a) A.length (B ++ rest_b) B.length)
        b_then_a).dev.buffer_pointer = A.length ∧
      (Race.run (Race.start s (A ++ rest_a) A.length (B ++ rest_b) B.length)
        b_then_a).dev.device_buffer.take
          (Race.run (Race.start s (A ++ rest_a) A.length (B ++ rest_b) B.length)
            b_then_a).dev.buffer_pointer = A) ∧
    ∀ schedule : List Bool,
      ((Race.run (Race.start s (A ++ rest_a) A.length (B ++ rest_b) B.length)
          schedule).a.ret?.isSome = true ∨
        (Race.run (Race.start s (A ++ rest_a) A.length (B ++ rest_b) B.length)
          schedule).b.ret?.isSome = true) →
      (Race.run (Race.start s (A ++ rest_a) A.length (B ++ rest_b) B.length)
          schedule).dev.buffer_pointer = A.length ∨
      (Race.run (Race.start s (A ++ rest_a) A.length (B ++ rest_b) B.length)
          schedule).dev.buffer_pointer = B.length := by
  have hsa : A.length ≤ (A ++ rest_a).length := by simp
  have hsb : B.length ≤ (B ++ rest_b).length := by simp
  have hta : (A ++ rest_a).take A.length = A := by simp
  have htb : (B ++ rest_b).take B.length = B := by simp
  refine ⟨?_, ?_, fun schedule => ?_⟩
  · obtain ⟨h1, h2, h3, h4⟩ := serial_writes s (A ++ rest_a) A.length (B ++ rest_b) B.length
      hA hsa hB hsb
    rw [Race.start, race_run_a_then_b]
    exact ⟨h1, h2, h3, by rw [h4, htb]⟩
  · obtain ⟨h1, h2, h3, h4⟩ := serial_writes s (B ++ rest_b) B.length (A ++ rest_a) A.length
      hB hsb hA hsa
    rw [Race.start, race_run_b_then_a]
    exact ⟨h2, h1, h3, by rw [h4, hta]⟩
  · have hinit : RaceInv (A ++ rest_a) A.length (B ++ rest_b) B.length
        (Race.start s (A ++ rest_a) A.length (B ++ rest_b) B.length) := by
      refine ⟨⟨rfl, rfl, fun ret h => ?_⟩, ⟨rfl, rfl, fun ret h => ?_⟩, fun h => ?_⟩
      · simp [Race.start, WriteCall.start, WriteCall.ret?] at h
      · simp [Race.start, WriteCall.start, WriteCall.ret?] at h
      · simp [Race.start, WriteCall.start, WriteCall.ret?] at h
    exact (race_run_inv _ _ _ _ hA hsa hB hsb schedule _ hinit).2.2

/-- "hi" written after "hello" has returned, on the freshly loaded device. -/
theorem serial_writes_do_not_tear_witness :
    (Race.run (Race.start Device.init (hello ++ [])
        hello.length (hi ++ [])
        hi.length) a_then_b).dev.device_buffer.take
      (Race.run (Race.start Device.init (hello ++ [])
        hello.length (hi ++ [])
        hi.length) a_then_b).dev.buffer_pointer = [104, 105] :=
  (serial_writes_do_not_tear Device.init hello hi [] []
    (by decide) (by decide)).1.2.2.2

end Chardev
